import Mathlib

/-!
Shallow embedding of the `sieve_rs` crate (filter/sort/pagination query DSL).

Strings are modeled as `List Char` (named `Str`).  All string operations the
crate uses — `trim`, `split`, `starts_with`, `find`, `contains`, slicing at
indices of ASCII delimiters — are content-faithful under this model.  The one
place Rust byte slicing can go out of range (`&rest[operator.len()..]` in
`FilterTerm::from_str`, when the fallback operator `"=="` is longer than the
remainder) is modeled explicitly as a `panic` outcome.
-/

/-- Rust `&str`, modeled as a list of characters. -/
abbrev Str := List Char

/-- Convert a Lean string literal to the `Str` model. -/
def str (s : String) : Str := s.data

/-- Rust `char::is_whitespace`: the Unicode `White_Space` property. -/
def isRustWhitespace (c : Char) : Bool :=
  let n := c.toNat
  (0x9 ≤ n && n ≤ 0xD) || n == 0x20 || n == 0x85 || n == 0xA0 || n == 0x1680 ||
  (0x2000 ≤ n && n ≤ 0x200A) || n == 0x2028 || n == 0x2029 || n == 0x202F ||
  n == 0x205F || n == 0x3000

/-- Leading-whitespace removal (Rust `str::trim_start`). -/
def trimStartWS (s : Str) : Str := s.dropWhile isRustWhitespace

/-- Trailing-whitespace removal (Rust `str::trim_end`). -/
def trimEndWS (s : Str) : Str := (s.reverse.dropWhile isRustWhitespace).reverse

/-- Rust `str::trim`. -/
def trimWS (s : Str) : Str := trimEndWS (trimStartWS s)

/-- Rust `str::split(sep)` for a `char` separator: always returns at least one
piece; `""` yields `[""]`. -/
def splitOnChar (sep : Char) : Str → List Str
  | [] => [[]]
  | c :: cs =>
    if c = sep then [] :: splitOnChar sep cs
    else
      match splitOnChar sep cs with
      | [] => [[c]]
      | h :: t => (c :: h) :: t

/-- Rust `str::starts_with(c)` for a `char` pattern. -/
def headIs (c : Char) : Str → Bool
  | [] => false
  | d :: _ => d = c

/-- The operator-starting character set `"=!<>@_-"` used by
`FilterTerm::from_str` to end the field segment. -/
def isOpChar (c : Char) : Bool := (str "=!<>@_-").contains c

/-- Rust `str::trim_end_matches('*')`: removes every trailing `*`. -/
def dropTrailingStars (s : Str) : Str := (s.reverse.dropWhile (· = '*')).reverse

/-- Outcome of a fallible Rust call: `Ok`, `Err`, or a process-aborting panic
(out-of-range string slicing). -/
inductive RRes (α : Type) where
  | ok (val : α)
  | err (msg : Str)
  | panic
deriving DecidableEq, Repr

/-- `src/filter_operator.rs`: the nine filter operators. -/
inductive FilterOperator where
  | Equals
  | NotEquals
  | GreaterThan
  | LessThan
  | GreaterThanOrEqualTo
  | LessThanOrEqualTo
  | Contains
  | StartsWith
  | EndsWith
deriving DecidableEq, Repr

/-- `FilterOperator::from_str`: strips every trailing `*`
(`trim_end_matches('*')`), then matches the token table; unknown tokens give
`Err` carrying the original token. -/
def FilterOperator.fromStr (s : Str) : RRes FilterOperator :=
  let t := dropTrailingStars s
  if t = str "==" then .ok .Equals
  else if t = str "!=" then .ok .NotEquals
  else if t = str ">" then .ok .GreaterThan
  else if t = str "<" then .ok .LessThan
  else if t = str ">=" then .ok .GreaterThanOrEqualTo
  else if t = str "<=" then .ok .LessThanOrEqualTo
  else if t = str "@=" ∨ t = str "!@=" then .ok .Contains
  else if t = str "_=" ∨ t = str "!_=" then .ok .StartsWith
  else if t = str "_-=" ∨ t = str "!_-=" then .ok .EndsWith
  else .err s

/-- `src/filter_term.rs`: one parsed filter condition. -/
structure FilterTerm where
  names : List Str
  values : List Str
  operator : FilterOperator
  case_insensitive : Bool
deriving DecidableEq, Repr

/-- The `let operator = if rest.starts_with("==") { "==" } else if ...`
prefix chain of `FilterTerm::from_str`, with its `"=="` fallback. -/
def operatorSelect (rest : Str) : Str :=
  if (str "==").isPrefixOf rest then str "=="
  else if (str "!=").isPrefixOf rest then str "!="
  else if (str ">=").isPrefixOf rest then str ">="
  else if (str "<=").isPrefixOf rest then str "<="
  else if (str ">").isPrefixOf rest then str ">"
  else if (str "<").isPrefixOf rest then str "<"
  else if (str "@=").isPrefixOf rest then str "@="
  else if (str "_=").isPrefixOf rest then str "_="
  else if (str "_-=").isPrefixOf rest then str "_-="
  else str "=="

/-- `FilterOperator::from_str(operator).unwrap_or(FilterOperator::Equals)`. -/
def unwrapOrEquals : RRes FilterOperator → FilterOperator
  | .ok o => o
  | _ => .Equals

/-- `FilterTerm::from_str`.  Mirrors the source step by step: trim and reject
empty; grouped-field extraction on `'('`/`')'`, else scan to the first
operator-starting character; prefix-chain operator detection
(`operatorSelect`); `&rest[operator.len()..]` (a panic when the fallback token
is longer than the remainder — in the byte-level original also when the slice
boundary falls inside a multibyte character, which cannot happen for ASCII
input); `'|'`-split of the value; `unwrap_or(Equals)` on the operator lookup;
and the `ends_with('*') || operator == "@="` case-insensitivity flag. -/
def FilterTerm.fromStr (input : Str) : RRes FilterTerm :=
  let filter := trimWS input
  if filter = [] then .err (str "Filter is empty")
  else
    let nr : List Str × Str :=
      if headIs '(' filter && filter.contains ')' then
        let e := filter.findIdx (· = ')')
        (((splitOnChar '|' ((filter.take e).drop 1)).map trimWS), filter.drop (e + 1))
      else
        let e := filter.findIdx isOpChar
        ([trimWS (filter.take e)], filter.drop e)
    let rest := nr.2
    let operator := operatorSelect rest
    if operator.length ≤ rest.length then
      let values := (splitOnChar '|' (rest.drop operator.length)).map trimWS
      .ok { names := nr.1
            values := values
            operator := unwrapOrEquals (FilterOperator.fromStr operator)
            case_insensitive := operator.getLast? = some '*' || operator = str "@=" }
    else .panic

/-- `src/sort_order.rs`: sort direction. -/
inductive SortOrder where
  | Ascending
  | Descending
deriving DecidableEq, Repr

/-- `src/sort_term.rs`: one parsed sort condition. -/
structure SortTerm where
  name : Str
  order : SortOrder
deriving DecidableEq, Repr

/-- `SortTerm::from_str`: reject input whose trim is empty; a leading `-`
means descending with the remainder (`sort[1..]`) as the name, otherwise
ascending with the whole clause as the name. -/
def SortTerm.fromStr (sort : Str) : RRes SortTerm :=
  if trimWS sort = [] then .err (str "Sort is empty")
  else
    let order := if headIs '-' sort then SortOrder.Descending else SortOrder.Ascending
    let name :=
      match order with
      | .Descending => sort.drop 1
      | .Ascending => sort
    .ok { name := name, order := order }

/-- `src/sieve_model.rs`: the query model. `page`/`page_size` are `u64`; no
arithmetic is performed on them, so `Nat` is exact. -/
structure SieveModel where
  page : Nat
  page_size : Nat
  filters : Option (List FilterTerm)
  sorts : Option (List SortTerm)
deriving DecidableEq, Repr

/-- The `Ok`-collecting loop of `SieveModel::parse_filters`: push successfully
parsed terms, skip `Err` clauses; `none` models a clause panicking. -/
def collectFilters : List Str → Option (List FilterTerm)
  | [] => some []
  | c :: cs =>
    match FilterTerm.fromStr c with
    | .panic => none
    | .ok t => (collectFilters cs).map (t :: ·)
    | .err _ => collectFilters cs

/-- `SieveModel::parse_filters`: absent input stays absent; present input is
split on bare `','` and each clause parsed leniently.  The outer `Option` is
the panic channel (`none` = a clause panicked). -/
def SieveModel.parseFilters : Option Str → Option (Option (List FilterTerm))
  | none => some none
  | some fs => (collectFilters (splitOnChar ',' fs)).map some

/-- The regex `",\s*"` split used by `SieveModel::parse_sorts`: every `','`
starts a match which also greedily consumes the following whitespace run
(regex `\s` in Unicode mode is the `White_Space` property), so the split is
the bare `','` split with the leading whitespace of every piece after the
first removed. -/
def regexCommaSplit (s : Str) : List Str :=
  match splitOnChar ',' s with
  | [] => []
  | h :: t => h :: t.map trimStartWS

/-- `SieveModel::parse_sorts`: absent input stays absent; present input is
split by `COMMA_PATTERN` and the `Ok` results collected. -/
def SieveModel.parseSorts : Option Str → Option (List SortTerm)
  | none => none
  | some s =>
    some ((regexCommaSplit s).filterMap fun c =>
      match SortTerm.fromStr c with
      | .ok t => some t
      | _ => none)

/-- `SieveModel::new` (the spec's `build_query`): defaults `page` to 1 and
`page_size` to 100 and parses both optional strings.  `none` models the whole
constructor panicking (which happens exactly when filter parsing panics; sort
parsing cannot panic). -/
def SieveModel.new (page page_size : Option Nat) (filters sorts : Option Str) :
    Option SieveModel :=
  (SieveModel.parseFilters filters).map fun f =>
    { page := page.getD 1
      page_size := page_size.getD 100
      filters := f
      sorts := SieveModel.parseSorts sorts }

/-- C1: refuted as stated; the code panics.  `build_query(None, None,
Some("abc"), None)` aborts: the clause `"abc"` has no operator-starting
character, so the remainder is empty and the fallback slice
`&rest["==".len()..]` is out of range.  The model's `none` is that panic. -/
theorem c1_build_query_panics_on_operatorless_clause :
    SieveModel.new none none (some (str "abc")) none = none := by decide

/-- C2: refuted as stated; the code panics.  A non-empty clause with no
operator-starting character (here `"abc"`) does not produce the degenerate
`Equals`/empty-value term: `FilterTerm::from_str` panics on the out-of-range
slice `&""[2..]`. -/
theorem c2_operatorless_clause_panics :
    FilterTerm.fromStr (str "abc") = RRes.panic := by decide

/-- C3 counterexample: the filters sequence has TWO terms, not exactly one.
`"bad_clause_with_no_operator_chars"` contains `'_'`, an operator-starting
character, so it parses successfully instead of being dropped. -/
theorem c3_counterexample_two_terms_not_one :
    (SieveModel.new none none
        (some (str "bad_clause_with_no_operator_chars,title==Rock")) none).map
      (fun m => m.filters.map List.length) = some (some 2) := by decide

/-- C3 amended: `build_query(None, None,
Some("bad_clause_with_no_operator_chars,title==Rock"), None)` produces two
filter terms: the first clause is not dropped but leniently parsed as field
`"bad"` (up to its first `'_'`), operator `Equals`, value
`"lause_with_no_operator_chars"` (the fallback operator eats two characters),
followed by the term parsed from `"title==Rock"`. -/
theorem c3_amended_first_clause_mangled_not_dropped :
    SieveModel.new none none
        (some (str "bad_clause_with_no_operator_chars,title==Rock")) none =
    some { page := 1, page_size := 100,
           filters := some
             [{ names := [str "bad"], values := [str "lause_with_no_operator_chars"],
                operator := .Equals, case_insensitive := false },
              { names := [str "title"], values := [str "Rock"],
                operator := .Equals, case_insensitive := false }],
           sorts := none } := by decide

/-- C5 counterexample: `"==**"` does not fail.  `trim_end_matches('*')`
removes EVERY trailing `*`, not a single one, so `"==**"` reduces to `"=="`
and maps to `Equals` instead of producing an unknown-operator error. -/
theorem c5_counterexample_double_star_accepted :
    FilterOperator.fromStr (str "==**") = RRes.ok FilterOperator.Equals := by decide

/-- C6: refuted; the code contradicts its own documentation.  A trailing `*`
marker on the operator token (crate docs: "добавьте `*` после оператора")
does not set `case_insensitive`: in `"title==*Rock"` the prefix chain matches
`"=="`, the `*` lands in the value, and `operator.ends_with('*')` is dead code
since `operator` is always one of nine fixed literals.  (The Contains half of
the claim does hold.) -/
theorem c6_star_marker_ignored :
    FilterTerm.fromStr (str "title==*Rock") =
    RRes.ok { names := [str "title"], values := [str "*Rock"],
              operator := .Equals, case_insensitive := false } := by decide

/-- C7 counterexample: a present-but-empty filter or sort string yields a
PRESENT empty sequence (`Some([])`), not an absent one: the single empty
clause errors and is skipped, leaving the mapped vector empty. -/
theorem c7_counterexample_empty_string_gives_present_empty :
    SieveModel.new none none (some (str "")) none =
      some { page := 1, page_size := 100, filters := some [], sorts := none } ∧
    SieveModel.new none none none (some (str "")) =
      some { page := 1, page_size := 100, filters := none, sorts := some [] } := by
  exact ⟨by decide, by decide⟩

/-- C7 amended: empty-string input to either term parser fails with the
identifiable "empty" error, and `build_query` with a present-but-empty filter
or sort string yields a present empty sequence (`Some([])`), not `None`. -/
theorem c7_amended_empty_inputs :
    FilterTerm.fromStr (str "") = RRes.err (str "Filter is empty") ∧
    SortTerm.fromStr (str "") = RRes.err (str "Sort is empty") ∧
    (SieveModel.new none none (some (str "")) none).map (fun m => m.filters) =
      some (some []) ∧
    (SieveModel.new none none none (some (str ""))).map (fun m => m.sorts) =
      some (some []) := by
  exact ⟨by decide, by decide, by decide, by decide⟩

/-- The full token table of `FilterOperator::from_str`
(`src/filter_operator.rs`), negated spellings included. -/
def opTable : List (Str × FilterOperator) :=
  [(str "==", .Equals), (str "!=", .NotEquals), (str ">", .GreaterThan),
   (str "<", .LessThan), (str ">=", .GreaterThanOrEqualTo),
   (str "<=", .LessThanOrEqualTo),
   (str "@=", .Contains), (str "!@=", .Contains),
   (str "_=", .StartsWith), (str "!_=", .StartsWith),
   (str "_-=", .EndsWith), (str "!_-=", .EndsWith)]

/-- The tokens of `opTable`. -/
def opTokens : List Str := opTable.map Prod.fst

/-- The nine plain operator spellings with the tags the §4.1 table assigns,
in the priority order of the detection chain. -/
def plainOpTable : List (Str × FilterOperator) :=
  [(str "==", .Equals), (str "!=", .NotEquals),
   (str ">=", .GreaterThanOrEqualTo), (str "<=", .LessThanOrEqualTo),
   (str ">", .GreaterThan), (str "<", .LessThan),
   (str "@=", .Contains), (str "_=", .StartsWith), (str "_-=", .EndsWith)]

theorem trimWS_eq_nil_iff (s : Str) :
    trimWS s = [] ↔ ∀ c ∈ s, isRustWhitespace c = true := by
  unfold trimWS trimEndWS trimStartWS
  rw [List.reverse_eq_nil_iff, List.dropWhile_eq_nil_iff]
  simp only [List.mem_reverse]
  constructor
  · intro h c hc
    have hsplit := List.takeWhile_append_dropWhile (p := isRustWhitespace) (l := s)
    rw [← hsplit] at hc
    rcases List.mem_append.mp hc with h1 | h2
    · exact List.mem_takeWhile_imp h1
    · exact h c h2
  · intro h c hc
    exact h c ((List.dropWhile_suffix isRustWhitespace).subset hc)

theorem head_not_ws (c : Char) (cs : Str) (h : trimStartWS (c :: cs) = c :: cs) :
    isRustWhitespace c = false := by
  by_contra hb
  rw [Bool.not_eq_false] at hb
  unfold trimStartWS at h
  rw [List.dropWhile_cons, if_pos hb] at h
  have hle := (List.dropWhile_suffix (l := cs) isRustWhitespace).length_le
  have hlen := congrArg List.length h
  simp only [List.length_cons] at hlen
  omega

theorem trim_parts (f : Str) (h : trimWS f = f) :
    trimStartWS f = f ∧ trimEndWS f = f := by
  have h1 : (trimStartWS f).length ≤ f.length :=
    (List.dropWhile_suffix isRustWhitespace).length_le
  have h2 : (trimEndWS (trimStartWS f)).length ≤ (trimStartWS f).length := by
    unfold trimEndWS
    rw [List.length_reverse]
    have := (List.dropWhile_suffix (l := (trimStartWS f).reverse) isRustWhitespace).length_le
    rw [List.length_reverse] at this
    exact this
  have hlen : (trimWS f).length = f.length := by rw [h]
  unfold trimWS at hlen
  have hs : trimStartWS f = f := by
    have hsuf : trimStartWS f <:+ f := List.dropWhile_suffix isRustWhitespace
    exact hsuf.eq_of_length (by omega)
  refine ⟨hs, ?_⟩
  have := h
  unfold trimWS at this
  rwa [hs] at this

theorem trimStartWS_append (f r : Str) (hf : trimStartWS f = f) (hne : f ≠ []) :
    trimStartWS (f ++ r) = f ++ r := by
  cases f with
  | nil => exact absurd rfl hne
  | cons c cs =>
    have hc := head_not_ws c cs hf
    unfold trimStartWS
    rw [List.cons_append, List.dropWhile_cons, if_neg (by simp [hc])]

theorem trimEndWS_iff_rev (v : Str) :
    trimEndWS v = v ↔ trimStartWS v.reverse = v.reverse := by
  unfold trimEndWS trimStartWS
  constructor
  · intro h
    have := congrArg List.reverse h
    rwa [List.reverse_reverse] at this
  · intro h
    rw [h, List.reverse_reverse]

theorem trimEndWS_append (l v : Str) (hv : trimEndWS v = v) (hne : v ≠ []) :
    trimEndWS (l ++ v) = l ++ v := by
  have h1 : trimStartWS v.reverse = v.reverse := (trimEndWS_iff_rev v).mp hv
  have h2 : v.reverse ≠ [] := by simpa using hne
  have h3 := trimStartWS_append v.reverse l.reverse h1 h2
  unfold trimEndWS
  unfold trimStartWS at h3
  rw [List.reverse_append, h3, ← List.reverse_append, List.reverse_reverse]

theorem trimWS_clause (f op v : Str) (hf : trimWS f = f) (hfne : f ≠ [])
    (hv : trimWS v = v) (hopend : trimEndWS op = op) (hopne : op ≠ []) :
    trimWS (f ++ op ++ v) = f ++ op ++ v := by
  have hfs := (trim_parts f hf).1
  unfold trimWS
  rw [List.append_assoc, trimStartWS_append f (op ++ v) hfs hfne, ← List.append_assoc]
  rcases eq_or_ne v [] with rfl | hvne
  · rw [List.append_nil]
    exact trimEndWS_append f op hopend hopne
  · exact trimEndWS_append (f ++ op) v (trim_parts v hv).2 hvne

theorem headIs_append (c : Char) (f r : Str) (hne : f ≠ []) :
    headIs c (f ++ r) = headIs c f := by
  cases f with
  | nil => exact absurd rfl hne
  | cons d ds => rfl

theorem splitOnChar_ne_nil (sep : Char) (s : Str) : splitOnChar sep s ≠ [] := by
  cases s with
  | nil => simp [splitOnChar]
  | cons c cs =>
    by_cases h : c = sep
    · simp [splitOnChar, h]
    · simp only [splitOnChar, if_neg h]
      cases h2 : splitOnChar sep cs <;> simp

theorem splitOnChar_of_not_mem (sep : Char) (s : Str) (h : s.contains sep = false) :
    splitOnChar sep s = [s] := by
  induction s with
  | nil => rfl
  | cons c cs ih =>
    rw [List.contains_cons, Bool.or_eq_false_iff] at h
    have hcne : c ≠ sep := by
      intro he
      rw [he] at h
      simp at h
    rw [splitOnChar, if_neg hcne, ih h.2]

/-- C8: `SortTerm::from_str` rejects empty and whitespace-only input with an
error; every other clause starting with `-` gives direction `Descending` and
name the remainder after that character; otherwise direction `Ascending` and
name the full clause; no trimming is applied to the name. -/
theorem c8_sort_term_parsing :
    (∀ s : Str, (∀ c ∈ s, isRustWhitespace c = true) →
      SortTerm.fromStr s = RRes.err (str "Sort is empty")) ∧
    (∀ s : Str, ¬(∀ c ∈ s, isRustWhitespace c = true) → headIs '-' s = true →
      SortTerm.fromStr s = RRes.ok { name := s.drop 1, order := .Descending }) ∧
    (∀ s : Str, ¬(∀ c ∈ s, isRustWhitespace c = true) → headIs '-' s = false →
      SortTerm.fromStr s = RRes.ok { name := s, order := .Ascending }) := by
  refine ⟨?_, ?_, ?_⟩
  · intro s h
    rw [SortTerm.fromStr, if_pos ((trimWS_eq_nil_iff s).mpr h)]
  · intro s h hd
    have hne : trimWS s ≠ [] := fun he => h ((trimWS_eq_nil_iff s).mp he)
    rw [SortTerm.fromStr, if_neg hne]
    simp [hd]
  · intro s h hd
    have hne : trimWS s ≠ [] := fun he => h ((trimWS_eq_nil_iff s).mp he)
    rw [SortTerm.fromStr, if_neg hne]
    simp [hd]

/-- C8 witness: the theorem applied at `" "`, `"-x"` and `"x"`. -/
theorem c8_sort_term_parsing_witness :
    SortTerm.fromStr (str " ") = RRes.err (str "Sort is empty") ∧
    SortTerm.fromStr (str "-x") = RRes.ok { name := str "x", order := .Descending } ∧
    SortTerm.fromStr (str "x") = RRes.ok { name := str "x", order := .Ascending } := by
  refine ⟨c8_sort_term_parsing.1 (str " ") (by decide), ?_, ?_⟩
  · exact c8_sort_term_parsing.2.1 (str "-x") (by decide) (by decide)
  · exact c8_sort_term_parsing.2.2 (str "x") (by decide) (by decide)

/-- C10: `SortTerm::from_str` fails only on whitespace-only input — every
clause with at least one non-whitespace character succeeds; `"-"` succeeds as
`Descending` with an empty name, and `" -x"` succeeds as `Ascending` with the
leading space kept in the name. -/
theorem c10_sort_term_leniency :
    (∀ s : Str, (∃ c ∈ s, isRustWhitespace c = false) →
      ∃ t, SortTerm.fromStr s = RRes.ok t) ∧
    SortTerm.fromStr (str "-") = RRes.ok { name := [], order := .Descending } ∧
    SortTerm.fromStr (str " -x") = RRes.ok { name := str " -x", order := .Ascending } := by
  refine ⟨?_, by decide, by decide⟩
  intro s h
  have hne : trimWS s ≠ [] := by
    intro he
    obtain ⟨c, hc, hcf⟩ := h
    rw [(trimWS_eq_nil_iff s).mp he c hc] at hcf
    exact absurd hcf (by simp)
  rw [SortTerm.fromStr, if_neg hne]
  exact ⟨_, rfl⟩

/-- C10 witness: the success conjunct applied at the clause `"x"`. -/
theorem c10_sort_term_leniency_witness :
    ∃ t, SortTerm.fromStr (str "x") = RRes.ok t :=
  c10_sort_term_leniency.1 (str "x") ⟨'x', by decide, by decide⟩

/-- C9: every `FilterTerm` successfully returned by `FilterTerm::from_str` has
a non-empty `names` sequence and a non-empty `values` sequence (individual
elements may still be empty strings). -/
theorem c9_names_values_nonempty :
    ∀ (s : Str) (t : FilterTerm), FilterTerm.fromStr s = RRes.ok t →
      t.names ≠ [] ∧ t.values ≠ [] := by
  intro s t h
  simp only [FilterTerm.fromStr] at h
  split at h
  · simp at h
  · split at h
    · split at h
      · rw [RRes.ok.injEq] at h
        subst h
        constructor
        · simp [splitOnChar_ne_nil]
        · simp [splitOnChar_ne_nil]
      · simp at h
    · split at h
      · rw [RRes.ok.injEq] at h
        subst h
        constructor
        · simp
        · simp [splitOnChar_ne_nil]
      · simp at h

/-- C9 witness: the invariant instantiated on the term parsed from
`"title==Rock"`. -/
theorem c9_names_values_nonempty_witness :
    ({ names := [str "title"], values := [str "Rock"],
       operator := .Equals, case_insensitive := false } : FilterTerm).names ≠ [] ∧
    ({ names := [str "title"], values := [str "Rock"],
       operator := .Equals, case_insensitive := false } : FilterTerm).values ≠ [] :=
  c9_names_values_nonempty (str "title==Rock") _ (by decide)

theorem dropTrailingStars_append_stars (s : Str) (n : Nat) :
    dropTrailingStars (s ++ List.replicate n '*') = dropTrailingStars s := by
  unfold dropTrailingStars
  rw [List.reverse_append, List.reverse_replicate]
  congr 1
  induction n with
  | zero => simp
  | succ k ih =>
    rw [List.replicate_succ, List.cons_append, List.dropWhile_cons, if_pos (by simp)]
    exact ih

/-- C5 amended: `FilterOperator::from_str` strips ALL trailing `*` markers
(`trim_end_matches('*')`), then maps the twelve table tokens to their
operators; any token that is not a table token followed by trailing `*`s fails
with the unknown-operator error carrying the original token. -/
theorem c5_amended_operator_lookup :
    (∀ p ∈ opTable, ∀ n : Nat,
      FilterOperator.fromStr (p.1 ++ List.replicate n '*') = RRes.ok p.2) ∧
    (∀ s : Str, dropTrailingStars s ∉ opTokens →
      FilterOperator.fromStr s = RRes.err s) := by
  constructor
  · intro p hp n
    fin_cases hp <;>
      (simp only [FilterOperator.fromStr, dropTrailingStars_append_stars]; rfl)
  · intro s h
    have hne : ∀ t ∈ opTokens, dropTrailingStars s ≠ t := fun t ht he => h (he ▸ ht)
    have h1 := hne (str "==") (by decide)
    have h2 := hne (str "!=") (by decide)
    have h3 := hne (str ">") (by decide)
    have h4 := hne (str "<") (by decide)
    have h5 := hne (str ">=") (by decide)
    have h6 := hne (str "<=") (by decide)
    have h7 := hne (str "@=") (by decide)
    have h8 := hne (str "!@=") (by decide)
    have h9 := hne (str "_=") (by decide)
    have h10 := hne (str "!_=") (by decide)
    have h11 := hne (str "_-=") (by decide)
    have h12 := hne (str "!_-=") (by decide)
    simp [FilterOperator.fromStr, h1, h2, h3, h4, h5, h6, h7, h8, h9, h10, h11, h12]

/-- C5 amended witness: a table token, a token with two trailing markers, and
an unknown token. -/
theorem c5_amended_operator_lookup_witness :
    FilterOperator.fromStr (str "!_-=") = RRes.ok FilterOperator.EndsWith ∧
    FilterOperator.fromStr (str "@=**") = RRes.ok FilterOperator.Contains ∧
    FilterOperator.fromStr (str "=") = RRes.err (str "=") := by
  refine ⟨?_, ?_, c5_amended_operator_lookup.2 (str "=") (by decide)⟩
  · have h := c5_amended_operator_lookup.1 (str "!_-=", FilterOperator.EndsWith) (by decide) 0
    simpa using h
  · have h := c5_amended_operator_lookup.1 (str "@=", FilterOperator.Contains) (by decide) 2
    have e : str "@=**" = str "@=" ++ List.replicate 2 '*' := rfl
    rw [e]
    exact h

theorem isPrefixOf_append_self (l r : Str) : l.isPrefixOf (l ++ r) = true := by
  induction l with
  | nil => simp
  | cons a as ih => simp [List.isPrefixOf_cons₂, ih]

theorem notPre_head (a b : Char) (as bs : Str) (h : (a == b) = false) :
    List.isPrefixOf (a :: as) (b :: bs) = false := by
  rw [List.isPrefixOf_cons₂, h, Bool.false_and]

theorem notPre_single (c : Char) (v : Str) (h : headIs c v = false) :
    List.isPrefixOf [c] v = false := by
  cases v with
  | nil => rfl
  | cons d ds =>
    rw [List.isPrefixOf_cons₂, List.isPrefixOf_nil_left, Bool.and_true]
    have hdc : d ≠ c := by simpa [headIs] using h
    exact beq_eq_false_iff_ne.mpr (Ne.symm hdc)

theorem chainSel_eqeq (v : Str) : operatorSelect (str "==" ++ v) = str "==" := by
  unfold operatorSelect
  rw [if_pos (isPrefixOf_append_self (str "==") v)]

theorem chainSel_bang (v : Str) : operatorSelect (str "!=" ++ v) = str "!=" := by
  have h1 : (str "==").isPrefixOf (str "!=" ++ v) = false := by
    show List.isPrefixOf ('=' :: ['=']) ('!' :: ('=' :: v)) = false
    exact notPre_head '=' '!' _ _ (by decide)
  unfold operatorSelect
  rw [if_neg (by simp [h1]), if_pos (isPrefixOf_append_self (str "!=") v)]

theorem chainSel_ge (v : Str) : operatorSelect (str ">=" ++ v) = str ">=" := by
  have h1 : (str "==").isPrefixOf (str ">=" ++ v) = false := by
    show List.isPrefixOf ('=' :: ['=']) ('>' :: ('=' :: v)) = false
    exact notPre_head '=' '>' _ _ (by decide)
  have h2 : (str "!=").isPrefixOf (str ">=" ++ v) = false := by
    show List.isPrefixOf ('!' :: ['=']) ('>' :: ('=' :: v)) = false
    exact notPre_head '!' '>' _ _ (by decide)
  unfold operatorSelect
  rw [if_neg (by simp [h1]), if_neg (by simp [h2]),
    if_pos (isPrefixOf_append_self (str ">=") v)]

theorem chainSel_le (v : Str) : operatorSelect (str "<=" ++ v) = str "<=" := by
  have h1 : (str "==").isPrefixOf (str "<=" ++ v) = false := by
    show List.isPrefixOf ('=' :: ['=']) ('<' :: ('=' :: v)) = false
    exact notPre_head '=' '<' _ _ (by decide)
  have h2 : (str "!=").isPrefixOf (str "<=" ++ v) = false := by
    show List.isPrefixOf ('!' :: ['=']) ('<' :: ('=' :: v)) = false
    exact notPre_head '!' '<' _ _ (by decide)
  have h3 : (str ">=").isPrefixOf (str "<=" ++ v) = false := by
    show List.isPrefixOf ('>' :: ['=']) ('<' :: ('=' :: v)) = false
    exact notPre_head '>' '<' _ _ (by decide)
  unfold operatorSelect
  rw [if_neg (by simp [h1]), if_neg (by simp [h2]), if_neg (by simp [h3]),
    if_pos (isPrefixOf_append_self (str "<=") v)]

theorem chainSel_gt (v : Str) (hv : headIs '=' v = false) :
    operatorSelect (str ">" ++ v) = str ">" := by
  have h1 : (str "==").isPrefixOf (str ">" ++ v) = false := by
    show List.isPrefixOf ('=' :: ['=']) ('>' :: v) = false
    exact notPre_head '=' '>' _ _ (by decide)
  have h2 : (str "!=").isPrefixOf (str ">" ++ v) = false := by
    show List.isPrefixOf ('!' :: ['=']) ('>' :: v) = false
    exact notPre_head '!' '>' _ _ (by decide)
  have h3 : (str ">=").isPrefixOf (str ">" ++ v) = false := by
    show List.isPrefixOf ('>' :: ['=']) ('>' :: v) = false
    rw [List.isPrefixOf_cons₂, notPre_single '=' v hv, Bool.and_false]
  have h4 : (str "<=").isPrefixOf (str ">" ++ v) = false := by
    show List.isPrefixOf ('<' :: ['=']) ('>' :: v) = false
    exact notPre_head '<' '>' _ _ (by decide)
  unfold operatorSelect
  rw [if_neg (by simp [h1]), if_neg (by simp [h2]), if_neg (by simp [h3]),
    if_neg (by simp [h4]), if_pos (isPrefixOf_append_self (str ">") v)]

theorem chainSel_lt (v : Str) (hv : headIs '=' v = false) :
    operatorSelect (str "<" ++ v) = str "<" := by
  have h1 : (str "==").isPrefixOf (str "<" ++ v) = false := by
    show List.isPrefixOf ('=' :: ['=']) ('<' :: v) = false
    exact notPre_head '=' '<' _ _ (by decide)
  have h2 : (str "!=").isPrefixOf (str "<" ++ v) = false := by
    show List.isPrefixOf ('!' :: ['=']) ('<' :: v) = false
    exact notPre_head '!' '<' _ _ (by decide)
  have h3 : (str ">=").isPrefixOf (str "<" ++ v) = false := by
    show List.isPrefixOf ('>' :: ['=']) ('<' :: v) = false
    exact notPre_head '>' '<' _ _ (by decide)
  have h4 : (str "<=").isPrefixOf (str "<" ++ v) = false := by
    show List.isPrefixOf ('<' :: ['=']) ('<' :: v) = false
    rw [List.isPrefixOf_cons₂, notPre_single '=' v hv, Bool.and_false]
  have h5 : (str ">").isPrefixOf (str "<" ++ v) = false := by
    show List.isPrefixOf ('>' :: []) ('<' :: v) = false
    exact notPre_head '>' '<' _ _ (by decide)
  unfold operatorSelect
  rw [if_neg (by simp [h1]), if_neg (by simp [h2]), if_neg (by simp [h3]),
    if_neg (by simp [h4]), if_neg (by simp [h5]),
    if_pos (isPrefixOf_append_self (str "<") v)]

theorem chainSel_at (v : Str) : operatorSelect (str "@=" ++ v) = str "@=" := by
  have h1 : (str "==").isPrefixOf (str "@=" ++ v) = false := by
    show List.isPrefixOf ('=' :: ['=']) ('@' :: ('=' :: v)) = false
    exact notPre_head '=' '@' _ _ (by decide)
  have h2 : (str "!=").isPrefixOf (str "@=" ++ v) = false := by
    show List.isPrefixOf ('!' :: ['=']) ('@' :: ('=' :: v)) = false
    exact notPre_head '!' '@' _ _ (by decide)
  have h3 : (str ">=").isPrefixOf (str "@=" ++ v) = false := by
    show List.isPrefixOf ('>' :: ['=']) ('@' :: ('=' :: v)) = false
    exact notPre_head '>' '@' _ _ (by decide)
  have h4 : (str "<=").isPrefixOf (str "@=" ++ v) = false := by
    show List.isPrefixOf ('<' :: ['=']) ('@' :: ('=' :: v)) = false
    exact notPre_head '<' '@' _ _ (by decide)
  have h5 : (str ">").isPrefixOf (str "@=" ++ v) = false := by
    show List.isPrefixOf ('>' :: []) ('@' :: ('=' :: v)) = false
    exact notPre_head '>' '@' _ _ (by decide)
  have h6 : (str "<").isPrefixOf (str "@=" ++ v) = false := by
    show List.isPrefixOf ('<' :: []) ('@' :: ('=' :: v)) = false
    exact notPre_head '<' '@' _ _ (by decide)
  unfold operatorSelect
  rw [if_neg (by simp [h1]), if_neg (by simp [h2]), if_neg (by simp [h3]),
    if_neg (by simp [h4]), if_neg (by simp [h5]), if_neg (by simp [h6]),
    if_pos (isPrefixOf_append_self (str "@=") v)]

theorem chainSel_us (v : Str) : operatorSelect (str "_=" ++ v) = str "_=" := by
  have h1 : (str "==").isPrefixOf (str "_=" ++ v) = false := by
    show List.isPrefixOf ('=' :: ['=']) ('_' :: ('=' :: v)) = false
    exact notPre_head '=' '_' _ _ (by decide)
  have h2 : (str "!=").isPrefixOf (str "_=" ++ v) = false := by
    show List.isPrefixOf ('!' :: ['=']) ('_' :: ('=' :: v)) = false
    exact notPre_head '!' '_' _ _ (by decide)
  have h3 : (str ">=").isPrefixOf (str "_=" ++ v) = false := by
    show List.isPrefixOf ('>' :: ['=']) ('_' :: ('=' :: v)) = false
    exact notPre_head '>' '_' _ _ (by decide)
  have h4 : (str "<=").isPrefixOf (str "_=" ++ v) = false := by
    show List.isPrefixOf ('<' :: ['=']) ('_' :: ('=' :: v)) = false
    exact notPre_head '<' '_' _ _ (by decide)
  have h5 : (str ">").isPrefixOf (str "_=" ++ v) = false := by
    show List.isPrefixOf ('>' :: []) ('_' :: ('=' :: v)) = false
    exact notPre_head '>' '_' _ _ (by decide)
  have h6 : (str "<").isPrefixOf (str "_=" ++ v) = false := by
    show List.isPrefixOf ('<' :: []) ('_' :: ('=' :: v)) = false
    exact notPre_head '<' '_' _ _ (by decide)
  have h7 : (str "@=").isPrefixOf (str "_=" ++ v) = false := by
    show List.isPrefixOf ('@' :: ['=']) ('_' :: ('=' :: v)) = false
    exact notPre_head '@' '_' _ _ (by decide)
  unfold operatorSelect
  rw [if_neg (by simp [h1]), if_neg (by simp [h2]), if_neg (by simp [h3]),
    if_neg (by simp [h4]), if_neg (by simp [h5]), if_neg (by simp [h6]),
    if_neg (by simp [h7]), if_pos (isPrefixOf_append_self (str "_=") v)]

theorem chainSel_usd (v : Str) : operatorSelect (str "_-=" ++ v) = str "_-=" := by
  have h1 : (str "==").isPrefixOf (str "_-=" ++ v) = false := by
    show List.isPrefixOf ('=' :: ['=']) ('_' :: ('-' :: ('=' :: v))) = false
    exact notPre_head '=' '_' _ _ (by decide)
  have h2 : (str "!=").isPrefixOf (str "_-=" ++ v) = false := by
    show List.isPrefixOf ('!' :: ['=']) ('_' :: ('-' :: ('=' :: v))) = false
    exact notPre_head '!' '_' _ _ (by decide)
  have h3 : (str ">=").isPrefixOf (str "_-=" ++ v) = false := by
    show List.isPrefixOf ('>' :: ['=']) ('_' :: ('-' :: ('=' :: v))) = false
    exact notPre_head '>' '_' _ _ (by decide)
  have h4 : (str "<=").isPrefixOf (str "_-=" ++ v) = false := by
    show List.isPrefixOf ('<' :: ['=']) ('_' :: ('-' :: ('=' :: v))) = false
    exact notPre_head '<' '_' _ _ (by decide)
  have h5 : (str ">").isPrefixOf (str "_-=" ++ v) = false := by
    show List.isPrefixOf ('>' :: []) ('_' :: ('-' :: ('=' :: v))) = false
    exact notPre_head '>' '_' _ _ (by decide)
  have h6 : (str "<").isPrefixOf (str "_-=" ++ v) = false := by
    show List.isPrefixOf ('<' :: []) ('_' :: ('-' :: ('=' :: v))) = false
    exact notPre_head '<' '_' _ _ (by decide)
  have h7 : (str "@=").isPrefixOf (str "_-=" ++ v) = false := by
    show List.isPrefixOf ('@' :: ['=']) ('_' :: ('-' :: ('=' :: v))) = false
    exact notPre_head '@' '_' _ _ (by decide)
  have h8 : (str "_=").isPrefixOf (str "_-=" ++ v) = false := by
    show List.isPrefixOf ('_' :: ['=']) ('_' :: ('-' :: ('=' :: v))) = false
    rw [List.isPrefixOf_cons₂, notPre_head '=' '-' [] ('=' :: v) (by decide), Bool.and_false]
  unfold operatorSelect
  rw [if_neg (by simp [h1]), if_neg (by simp [h2]), if_neg (by simp [h3]),
    if_neg (by simp [h4]), if_neg (by simp [h5]), if_neg (by simp [h6]),
    if_neg (by simp [h7]), if_neg (by simp [h8]),
    if_pos (isPrefixOf_append_self (str "_-=") v)]

theorem findIdx_clause (f : Str) (d : Char) (r : Str)
    (hf : ∀ c ∈ f, isOpChar c = false) (hd : isOpChar d = true) :
    (f ++ d :: r).findIdx isOpChar = f.length := by
  rw [List.findIdx_append]
  rw [List.findIdx_eq_length_of_false hf]
  simp [List.findIdx_cons, hd]

theorem fromStr_structured (f : Str) (d : Char) (ds v : Str)
    (hfne : f ≠ []) (hf : trimWS f = f) (hhead : headIs '(' f = false)
    (hfop : ∀ c ∈ f, isOpChar c = false)
    (hd : isOpChar d = true)
    (hopend : trimEndWS (d :: ds) = d :: ds)
    (hv : trimWS v = v)
    (hpipe : v.contains '|' = false)
    (hchain : operatorSelect ((d :: ds) ++ v) = d :: ds) :
    FilterTerm.fromStr (f ++ (d :: ds) ++ v) =
      RRes.ok { names := [f], values := [v],
                operator := unwrapOrEquals (FilterOperator.fromStr (d :: ds)),
                case_insensitive :=
                  (d :: ds).getLast? = some '*' || (d :: ds) = str "@=" } := by
  have htrim : trimWS (f ++ (d :: ds) ++ v) = f ++ (d :: ds) ++ v :=
    trimWS_clause f (d :: ds) v hf hfne hv hopend (by simp)
  have hne : f ++ (d :: ds) ++ v ≠ [] := by simp
  have hgl : headIs '(' (f ++ (d :: ds) ++ v) = false := by
    rw [List.append_assoc, headIs_append '(' f _ hfne]
    exact hhead
  have hidx : (f ++ (d :: ds) ++ v).findIdx isOpChar = f.length := by
    rw [List.append_assoc]
    exact findIdx_clause f d (ds ++ v) hfop hd
  simp only [FilterTerm.fromStr, htrim, hidx]
  rw [if_neg hne]
  rw [hgl, Bool.false_and]
  have hff : ¬((false : Bool) = true) := by simp
  rw [if_neg hff]
  rw [List.append_assoc, List.take_left, List.drop_left, hf, hchain]
  rw [if_pos (by simp : List.length (d :: ds) ≤ List.length ((d :: ds) ++ v))]
  rw [List.drop_left, splitOnChar_of_not_mem '|' v hpipe]
  simp only [List.map_cons, List.map_nil, hv]

/-- C4 counterexample: the claim fails on the negated spellings and on
whitespace in the field.  `"f!@=v"`: no prefix of `"!@=v"` is in the detection
chain, so the fallback `"=="` applies, giving operator `Equals` and value
`"=v"` instead of `Contains`/`"v"`.  `"a ==b"` (field `"a "`): the field is
trimmed, so `names` is `["a"]`, not `["a "]`. -/
theorem c4_counterexample_negated_and_whitespace :
    FilterTerm.fromStr (str "f!@=v") =
      RRes.ok { names := [str "f"], values := [str "=v"],
                operator := .Equals, case_insensitive := false } ∧
    FilterTerm.fromStr (str "a ==b") =
      RRes.ok { names := [str "a"], values := [str "b"],
                operator := .Equals, case_insensitive := false } :=
  ⟨by decide, by decide⟩

/-- C4 amended: restricted to the NINE PLAIN spellings (the negated spellings
`!@=`, `!_=`, `!_-=` are not in the detection chain and fall back to
`Equals`), and to fields and values without surrounding whitespace (the
parser trims both): for every clause `f ++ op ++ v` with `f` non-empty,
containing no operator-starting character, not starting with `'('`, `v`
containing no `'|'` or `','`, and `v` not extending `>`/`<` into `>=`/`<=`,
parsing yields `names = [f]`, `values = [v]` and the table's operator;
`case_insensitive` is set exactly for `Contains`. -/
theorem c4_amended_plain_operator_table :
    ∀ (op : Str) (tag : FilterOperator), (op, tag) ∈ plainOpTable →
    ∀ (f v : Str), f ≠ [] → (∀ c ∈ f, isOpChar c = false) → headIs '(' f = false →
      trimWS f = f → trimWS v = v →
      v.contains '|' = false → v.contains ',' = false →
      ((op = str ">" ∨ op = str "<") → headIs '=' v = false) →
      FilterTerm.fromStr (f ++ op ++ v) =
        RRes.ok { names := [f], values := [v], operator := tag,
                  case_insensitive := decide (tag = FilterOperator.Contains) } := by
  intro op tag hmem f v hfne hfop hhead hf hv hpipe hcomma hext
  fin_cases hmem
  · exact fromStr_structured f '=' ['='] v hfne hf hhead hfop (by decide) (by decide) hv hpipe (chainSel_eqeq v)
  · exact fromStr_structured f '!' ['='] v hfne hf hhead hfop (by decide) (by decide) hv hpipe (chainSel_bang v)
  · exact fromStr_structured f '>' ['='] v hfne hf hhead hfop (by decide) (by decide) hv hpipe (chainSel_ge v)
  · exact fromStr_structured f '<' ['='] v hfne hf hhead hfop (by decide) (by decide) hv hpipe (chainSel_le v)
  · exact fromStr_structured f '>' [] v hfne hf hhead hfop (by decide) (by decide) hv hpipe (chainSel_gt v (hext (Or.inl rfl)))
  · exact fromStr_structured f '<' [] v hfne hf hhead hfop (by decide) (by decide) hv hpipe (chainSel_lt v (hext (Or.inr rfl)))
  · exact fromStr_structured f '@' ['='] v hfne hf hhead hfop (by decide) (by decide) hv hpipe (chainSel_at v)
  · exact fromStr_structured f '_' ['='] v hfne hf hhead hfop (by decide) (by decide) hv hpipe (chainSel_us v)
  · exact fromStr_structured f '_' ['-', '='] v hfne hf hhead hfop (by decide) (by decide) hv hpipe (chainSel_usd v)

/-- C4 amended witness: the theorem applied at the clause `"title>=3"`. -/
theorem c4_amended_plain_operator_table_witness :
    FilterTerm.fromStr (str "title>=3") =
      RRes.ok { names := [str "title"], values := [str "3"],
                operator := .GreaterThanOrEqualTo, case_insensitive := false } :=
  c4_amended_plain_operator_table (str ">=") FilterOperator.GreaterThanOrEqualTo (by decide)
    (str "title") (str "3") (by decide) (by decide) (by decide) (by decide)
    (by decide) (by decide) (by decide) (by decide)
